import Mathlib

/-!
Verification of the chess-game viewer/annotator orchestration layer.

The repository is a single-page application: a session controller
(`App` in the main component file) owns all mutable session state and wires
user actions to three collaborators: an external chess rules engine
(`chess.js`, treated as an opaque capability), a game-server HTTP client
(`lichessService`), and an AI coaching client (`geminiService`).

Shallow embedding conventions:
* The external rules engine is modelled as an abstract interface `Engine G`
  whose operations mirror exactly the `chess.js` calls the code makes
  (`new Chess()`, `new Chess(fen)`, `loadPgn`, `history`, `move`, `fen`,
  `pgn`).  Engine calls that throw in JavaScript are modelled as `Option`.
* React `useState` values become fields of `SessionState`; each event
  handler becomes a function `SessionState → … → SessionState` describing
  the net effect of the handler plus any `useEffect` it triggers.  The
  `useEffect` with dependency array `[pgn]` re-runs only when the `pgn`
  string actually changes (React compares dependencies with `Object.is`),
  so the composite transitions guard the effect with an equality test.
* `JSON.parse` is external platform code; its outcome is passed in as an
  `Option` value (`none` models a thrown `SyntaxError`).
* Session-controller handlers that await a network call take the call's
  outcome as an explicit argument and additionally return a `Bool`
  recording whether the external client was actually invoked.
-/

/-! ## Data model (from the shared type declarations) -/

inductive InputMode where
  | manual
  | pgn
  | lichess
  deriving DecidableEq, Repr

structure AnalysisPhase where
  score : Int
  feedback : String
  errors : List String
  deriving DecidableEq, Repr

structure FullAnalysis where
  opening : AnalysisPhase
  middlegame : AnalysisPhase
  tactics : AnalysisPhase
  endgame : AnalysisPhase
  overallAdvice : String
  referencedBooks : List String
  deriving DecidableEq, Repr

structure UserRef where
  name : String
  deriving DecidableEq, Repr

structure PlayerSide where
  user : UserRef
  deriving DecidableEq, Repr

structure GamePlayers where
  white : PlayerSide
  black : PlayerSide
  deriving DecidableEq, Repr

structure LichessGameSummary where
  id : String
  players : GamePlayers
  createdAt : Int
  status : String
  variant : String
  deriving DecidableEq, Repr

inductive ChatRole where
  | user
  | assistant
  deriving DecidableEq, Repr

structure ChatMessage where
  role : ChatRole
  content : String
  deriving DecidableEq, Repr

inductive PanelTab where
  | analysis
  | chat
  deriving DecidableEq, Repr

/-! ## The external chess rules engine, as the code uses it -/

/-- Interface of the external rules engine (`chess.js`) restricted to the
operations the application calls.  `G` is the type of game objects.
`loadPgn`, `moveSan` and `moveObj` return `none` where the JavaScript
methods throw. -/
structure Engine (G : Type) where
  /-- `new Chess()`: a fresh game at the standard starting position. -/
  init : G
  /-- `game.loadPgn(text)`; `none` models a thrown parse error. -/
  loadPgn : String → Option G
  /-- `game.history()`: the SAN move list of the game. -/
  history : G → List String
  /-- `game.move(san)` for a SAN string; `none` models a throw. -/
  moveSan : G → String → Option G
  /-- `game.move({from, to, promotion})`; `none` models a throw or a null
  result (an illegal move). -/
  moveObj : G → String → String → String → Option G
  /-- `game.fen()`: the displayed board position string. -/
  fen : G → String
  /-- `game.pgn()`: the PGN text of the game. -/
  pgn : G → String
  /-- `new Chess(fenText)`: a game constructed from a position string. -/
  fromFen : String → G

/-- Sequential replay `for (let i = 0; …) g.move(history[i])`: applies SAN
moves in order, failing (as the loop would throw) at the first rejected
move. -/
def replayFrom {G : Type} (E : Engine G) (g : G) : List String → Option G
  | [] => some g
  | m :: ms =>
    match E.moveSan g m with
    | none => none
    | some g' => replayFrom E g' ms

/-! ## Session state (the `useState` hooks of the main component) -/

structure SessionState (G : Type) where
  game : G
  pgn : String
  username : String
  inputMode : InputMode
  recentGames : List LichessGameSummary
  isSearchingLichess : Bool
  showGameSelector : Bool
  isAnalyzing : Bool
  analysis : Option FullAnalysis
  moveHistory : List String
  currentMoveIndex : Int
  error : Option String
  activeTab : PanelTab
  chatMessages : List ChatMessage
  userQuery : String
  isThinking : Bool
  deriving DecidableEq

/-- Initial value of every `useState` hook of the component. -/
def initialState {G : Type} (E : Engine G) : SessionState G :=
  { game := E.init
    pgn := ""
    username := ""
    inputMode := InputMode.manual
    recentGames := []
    isSearchingLichess := false
    showGameSelector := false
    isAnalyzing := false
    analysis := none
    moveHistory := []
    currentMoveIndex := -1
    error := none
    activeTab := PanelTab.analysis
    chatMessages := []
    userQuery := ""
    isThinking := false }

/-- JavaScript `String.prototype.trim`, modelled on character lists:
strip whitespace from both ends. -/
def jsTrim (l : List Char) : List Char :=
  ((l.dropWhile Char.isWhitespace).reverse.dropWhile Char.isWhitespace).reverse

/-! ## Session-controller transitions -/

/-- The `useEffect` with dependency `[pgn]`: when the PGN text is non-empty
it reloads the game, replacing the move history, the cursor (set to the
last move) and the board; a load failure sets the error string and leaves
the rest untouched. -/
def pgnEffect {G : Type} (E : Engine G) (s : SessionState G) : SessionState G :=
  if s.pgn = "" then s
  else
    match E.loadPgn s.pgn with
    | none => { s with error := some "Invalid PGN data." }
    | some g =>
      { s with
        moveHistory := E.history g
        currentMoveIndex := (E.history g).length - 1
        game := g }

/-- `handlePgnUpload` reading a file whose content is `content`: sets the
PGN text and the input mode; the `[pgn]` effect re-runs only if the text
actually changed. -/
def uploadPgn {G : Type} (E : Engine G) (s : SessionState G) (content : String) :
    SessionState G :=
  let s1 := { s with pgn := content, inputMode := InputMode.pgn }
  if content = s.pgn then s1 else pgnEffect E s1

/-- `makeAMove` (used by `onDrop`): copies the current position via
`new Chess(game.fen())`, attempts the move, and on success stores the new
game and its PGN (clearing the error); the `[pgn]` effect then re-runs if
the PGN text changed.  Returns the updated state and whether the move was
accepted.  A rejected move changes nothing and surfaces no error. -/
def makeAMove {G : Type} (E : Engine G) (s : SessionState G)
    (mFrom mTo promotion : String) : SessionState G × Bool :=
  match E.moveObj (E.fromFen (E.fen s.game)) mFrom mTo promotion with
  | none => (s, false)
  | some gc =>
    let s1 := { s with game := gc, pgn := E.pgn gc, error := none }
    (if E.pgn gc = s.pgn then s1 else pgnEffect E s1, true)

/-- `onDrop` from the board widget: a user move with promotion fixed to
queen. -/
def onDrop {G : Type} (E : Engine G) (s : SessionState G)
    (sourceSquare targetSquare : String) : SessionState G × Bool :=
  makeAMove E s sourceSquare targetSquare "q"

/-- `resetGame`: fresh board, empty PGN, empty history, cursor `-1`, no
analysis, empty transcript, no error.  (The other state hooks are not
touched by the handler.) -/
def resetGame {G : Type} (E : Engine G) (s : SessionState G) : SessionState G :=
  { s with
    game := E.init
    pgn := ""
    moveHistory := []
    currentMoveIndex := -1
    analysis := none
    chatMessages := []
    error := none }

/-- `navigateToMove(index)`: when a PGN is loaded, replays moves
`[0..index]` of its history on a fresh game and stores the result together
with the new cursor.  Any throw inside the handler (PGN load failure, an
out-of-range access `history[i]` yielding `undefined`, or a rejected
replay move) aborts the handler before any state update. -/
def navigateToMove {G : Type} (E : Engine G) (s : SessionState G) (index : Int) :
    SessionState G :=
  if s.pgn = "" then s
  else
    match E.loadPgn s.pgn with
    | none => s
    | some g =>
      if ((E.history g).length : Int) ≤ index then s
      else
        match replayFrom E E.init ((E.history g).take (index + 1).toNat) with
        | none => s
        | some ng => { s with game := ng, currentMoveIndex := index }

/-- `startAnalysis`: guarded on having a game; otherwise awaits the AI
call whose outcome is `result`.  The handler clears the analysis and the
error before the call, so a failed call leaves the analysis cleared.  The
returned `Bool` records whether the AI client was invoked. -/
def startAnalysis {G : Type} (s : SessionState G)
    (result : Except String FullAnalysis) : SessionState G × Bool :=
  if s.pgn = "" ∧ s.moveHistory = [] then
    ({ s with error := some "Please input some moves or upload a game first." }, false)
  else
    match result with
    | Except.ok a =>
      ({ s with
          isAnalyzing := false
          analysis := some a
          error := none
          activeTab := PanelTab.analysis }, true)
    | Except.error _ =>
      ({ s with
          isAnalyzing := false
          analysis := none
          error := some "Analysis failed. Please try again." }, true)

/-- `handleSendChat`: a no-op when the trimmed input is empty or a reply
is in flight; otherwise appends the user message, awaits the AI call whose
outcome is `reply`, and appends the assistant reply or sets the chat
failure error.  The returned `Bool` records whether the AI client was
invoked. -/
def handleSendChat {G : Type} (s : SessionState G)
    (reply : Except String String) : SessionState G × Bool :=
  if jsTrim s.userQuery.data = [] ∨ s.isThinking = true then (s, false)
  else
    let newMessages := s.chatMessages ++ [{ role := ChatRole.user, content := s.userQuery }]
    match reply with
    | Except.ok r =>
      ({ s with
          userQuery := ""
          chatMessages := newMessages ++ [{ role := ChatRole.assistant, content := r }]
          isThinking := false }, true)
    | Except.error _ =>
      ({ s with
          userQuery := ""
          chatMessages := newMessages
          error := some "Chat failed. Check your API key or connection."
          isThinking := false }, true)

/-! ## AI coaching client (`geminiService.analyzeGame`) -/

/-- JSON values, the shape `JSON.parse` produces. -/
inductive Json where
  | null : Json
  | bool : Bool → Json
  | num : Int → Json
  | str : String → Json
  | arr : List Json → Json
  | obj : List (String × Json) → Json

/-- Whether a parsed JSON value is an object carrying the given key. -/
def Json.hasField : Json → String → Bool
  | Json.obj fields, key => fields.any (fun p => p.1 == key)
  | _, _ => false

/-- Post-processing of the AI analysis response in `analyzeGame`: the
response text's parse outcome is `parsed` (`none` models `JSON.parse`
throwing).  The code only guards the parse; the `as FullAnalysis` cast
performs no runtime field validation, so any parsed value is returned
as-is. -/
def analyzeGame (parsed : Option Json) : Except String Json :=
  match parsed with
  | none => Except.error "Invalid analysis format received from AI."
  | some j => Except.ok j

/-! ## Game-server client (`lichessService.fetchRecentLichessGames`) -/

/-- Error kinds of the recent-games fetch: the thrown "Lichess user not
found or private." error and a rethrown `JSON.parse` failure. -/
inductive LichessError where
  | notFoundOrPrivate
  | parseFailure
  deriving DecidableEq, Repr

/-- JavaScript `text.split('\n')` on character lists: the segments between
newline characters (always at least one segment). -/
def splitLines : List Char → List (List Char)
  | [] => [[]]
  | c :: cs =>
    if c = '\n' then [] :: splitLines cs
    else
      match splitLines cs with
      | [] => [[c]]
      | l :: ls => (c :: l) :: ls

/-- `lines.map(line => JSON.parse(line))`: each line is parsed
independently; the first throwing line aborts the whole map, so the result
is all-or-nothing. -/
def parseLines {J : Type} (parse : List Char → Option J) :
    List (List Char) → Option (List J)
  | [] => some []
  | x :: xs =>
    match parse x with
    | none => none
    | some j =>
      match parseLines parse xs with
      | none => none
      | some js => some (j :: js)

/-- `fetchRecentLichessGames`: on a non-ok response throws
`notFoundOrPrivate`; otherwise trims the body, splits it into lines and
parses every line, rethrowing the first parse failure.  `parse` is the
per-line `JSON.parse` outcome, `ok` the HTTP success flag, `body` the
response text. -/
def fetchRecentLichessGames {J : Type} (parse : List Char → Option J)
    (ok : Bool) (body : List Char) : Except LichessError (List J) :=
  if ok then
    match parseLines parse (splitLines (jsTrim body)) with
    | none => Except.error LichessError.parseFailure
    | some js => Except.ok js
  else Except.error LichessError.notFoundOrPrivate

/-! ## Reachability through the exposed user actions -/

/-- One user action as exposed by the UI: a PGN upload, a navigation via
the enabled controls (the two arrow buttons and the move-history buttons),
a piece drop, or a reset.  The navigation constructors carry exactly the
`disabled` conditions of the corresponding controls. -/
inductive Step {G : Type} (E : Engine G) :
    SessionState G → SessionState G → Prop where
  | upload (s : SessionState G) (content : String) :
      Step E s (uploadPgn E s content)
  | navPrevBtn (s : SessionState G) (h : 0 ≤ s.currentMoveIndex) :
      Step E s (navigateToMove E s (s.currentMoveIndex - 1))
  | navNextBtn (s : SessionState G)
      (h : s.currentMoveIndex < (s.moveHistory.length : Int) - 1) :
      Step E s (navigateToMove E s (s.currentMoveIndex + 1))
  | historyClick (s : SessionState G) (i : Nat) (h : i < s.moveHistory.length) :
      Step E s (navigateToMove E s (i : Int))
  | drop (s : SessionState G) (mFrom mTo : String) :
      Step E s (onDrop E s mFrom mTo).1
  | resetBtn (s : SessionState G) :
      Step E s (resetGame E s)

/-- States reachable from the initial state through the exposed user
actions. -/
inductive Reachable {G : Type} (E : Engine G) : SessionState G → Prop where
  | init : Reachable E (initialState E)
  | step {s s' : SessionState G} :
      Reachable E s → Step E s s' → Reachable E s'

/-- The documented session invariant: the cursor lies in
`[-1, moveHistory.length - 1]`, and the displayed board position is the
position after replaying moves `[0..currentMoveIndex]` from the starting
position. -/
def boardInvariant {G : Type} (E : Engine G) (s : SessionState G) : Prop :=
  -1 ≤ s.currentMoveIndex ∧
  s.currentMoveIndex < (s.moveHistory.length : Int) ∧
  ∃ r, replayFrom E E.init (s.moveHistory.take (s.currentMoveIndex + 1).toNat) = some r ∧
    E.fen s.game = E.fen r

/-! ## A small concrete rules engine

Used to instantiate the engine-parametric theorems on concrete inputs.  A
game object is its SAN move list; positions and PGN text are encodings of
that list. -/

/-- Concrete instantiation of the engine interface: a game is its move
list, `fen`/`pgn` concatenate the moves, `loadPgn` of a non-empty text
yields the one-move game named by the text, and a move from square `f` to
square `t` is legal exactly when `f` is non-empty. -/
def toyEngine : Engine (List String) :=
  { init := []
    loadPgn := fun p => if p = "" then some [] else some [p]
    history := fun g => g
    moveSan := fun g m => some (g ++ [m])
    moveObj := fun g f t _ => if f = "" then none else some (g ++ [f ++ t])
    fen := fun g => String.join g
    pgn := fun g => String.join g
    fromFen := fun f => if f = "" then [] else [f] }

/-- Engine contract a reasonable rules engine satisfies: a loaded game's
history replays from the start to the same position, the PGN text a game
prints can be loaded back, and the PGN of a game containing a successful
move is non-empty. -/
structure EngineCoherent {G : Type} (E : Engine G) : Prop where
  loadPgn_replay : ∀ p g, E.loadPgn p = some g →
    ∃ r, replayFrom E E.init (E.history g) = some r ∧ E.fen r = E.fen g
  pgn_loads : ∀ g : G, ∃ g', E.loadPgn (E.pgn g) = some g'
  move_pgn_ne : ∀ (g : G) (f t pr : String) (gc : G),
    E.moveObj g f t pr = some gc → E.pgn gc ≠ ""

/-! ## Concrete states and inputs for instantiating the theorems -/

/-- State reached from the initial state by dropping a piece from `"e2"`
to `"e4"` under `toyEngine`. -/
def rbS1 : SessionState (List String) :=
  { initialState toyEngine with
      game := ["e2e4"], pgn := "e2e4", moveHistory := ["e2e4"], currentMoveIndex := 0 }

/-- State reached from `rbS1` by the enabled previous-move button. -/
def rbS2 : SessionState (List String) :=
  { rbS1 with game := [], currentMoveIndex := -1 }

/-- State reached from `rbS2` by replaying the same drop: the PGN text is
unchanged, so the `[pgn]` effect does not re-run and the cursor stays at
`-1` while the board shows the position after the move. -/
def rbBad : SessionState (List String) :=
  { rbS2 with game := ["e2e4"] }

/-- Analysis phase used to build a concrete prior analysis. -/
def phaseA : AnalysisPhase :=
  { score := 70, feedback := "solid", errors := [] }

/-- Concrete prior analysis displayed before a failing analysis request. -/
def analysisA : FullAnalysis :=
  { opening := phaseA, middlegame := phaseA, tactics := phaseA, endgame := phaseA
    overallAdvice := "study endgames", referencedBooks := [] }

/-- Session with a loaded game and a displayed prior analysis. -/
def sC1 : SessionState (List String) :=
  { rbS1 with analysis := some analysisA }

/-- Parsed AI response that is a JSON object with no `endgame` field. -/
def jsonMissingEndgame : Json :=
  Json.obj [("opening", Json.num 50)]

/-- Session in lichess mode with a username, used against the reset
claim. -/
def sC2 : SessionState (List String) :=
  { rbS1 with inputMode := InputMode.lichess, username := "alice" }

/-- Session whose chat input is whitespace-only. -/
def sChat : SessionState (List String) :=
  { rbS1 with userQuery := "   " }

/-- Line parser accepting only the line `a`. -/
def parseOnlyA : List Char → Option Nat :=
  fun l => if l = ['a'] then some 1 else none

/-- Line parser rejecting every line. -/
def parseNever : List Char → Option Nat :=
  fun _ => none

/-- Line parser accepting every line. -/
def parseAlways : List Char → Option Nat :=
  fun _ => some 7

/-! ## Helper lemmas -/

theorem eq_empty_of_length_zero {s : String} (h : s.length = 0) : s = "" := by
  apply String.ext
  have hd : s.data.length = 0 := by rw [String.length_data]; exact h
  simpa using List.length_eq_zero.mp hd

theorem append_ne_empty_left {f : String} (t : String) (hf : f ≠ "") : f ++ t ≠ "" := by
  intro h
  apply hf
  have hl := congrArg String.length h
  rw [String.length_append] at hl
  have h0 : ("" : String).length = 0 := rfl
  rw [h0] at hl
  exact eq_empty_of_length_zero (by omega)

theorem append_ne_empty_right (f : String) {t : String} (ht : t ≠ "") : f ++ t ≠ "" := by
  intro h
  apply ht
  have hl := congrArg String.length h
  rw [String.length_append] at hl
  have h0 : ("" : String).length = 0 := rfl
  rw [h0] at hl
  exact eq_empty_of_length_zero (by omega)

theorem join_concat (l : List String) (x : String) :
    String.join (l ++ [x]) = String.join l ++ x := by
  simp [String.join, List.foldl_append]

theorem toyEngine_coherent : EngineCoherent toyEngine := by
  constructor
  · intro p g h
    by_cases hp : p = ""
    · simp [toyEngine, hp] at h
      subst h
      exact ⟨[], rfl, rfl⟩
    · simp [toyEngine, hp] at h
      subst h
      exact ⟨[p], rfl, rfl⟩
  · intro g
    by_cases hp : String.join g = ""
    · exact ⟨[], by simp [toyEngine, hp]⟩
    · exact ⟨[String.join g], by simp [toyEngine, hp]⟩
  · intro g f t pr gc h
    by_cases hf : f = ""
    · simp [toyEngine, hf] at h
    · simp [toyEngine, hf] at h
      subst h
      show String.join (g ++ [f ++ t]) ≠ ""
      rw [join_concat]
      exact append_ne_empty_right _ (append_ne_empty_left t hf)

theorem navigateToMove_eq_of {G : Type} (E : Engine G) (s : SessionState G)
    (i : Int) (g ng : G) (hp : s.pgn ≠ "") (hL : E.loadPgn s.pgn = some g)
    (hlen : i < ((E.history g).length : Int))
    (hR : replayFrom E E.init ((E.history g).take (i + 1).toNat) = some ng) :
    navigateToMove E s i = { s with game := ng, currentMoveIndex := i } := by
  simp [navigateToMove, hp, hL, not_le.mpr hlen, hR]

theorem navigateToMove_cases {G : Type} (E : Engine G) (s : SessionState G) (i : Int) :
    navigateToMove E s i = s ∨
    ∃ g ng, s.pgn ≠ "" ∧ E.loadPgn s.pgn = some g ∧
      i < ((E.history g).length : Int) ∧
      replayFrom E E.init ((E.history g).take (i + 1).toNat) = some ng ∧
      navigateToMove E s i = { s with game := ng, currentMoveIndex := i } := by
  by_cases hp : s.pgn = ""
  · left; simp [navigateToMove, hp]
  · cases hL : E.loadPgn s.pgn with
    | none => left; simp [navigateToMove, hp, hL]
    | some g =>
      by_cases hlen : ((E.history g).length : Int) ≤ i
      · left; simp [navigateToMove, hp, hL, hlen]
      · cases hR : replayFrom E E.init ((E.history g).take (i + 1).toNat) with
        | none => left; simp [navigateToMove, hp, hL, hlen, hR]
        | some ng =>
          right
          exact ⟨g, ng, hp, rfl, by omega, hR,
            navigateToMove_eq_of E s i g ng hp hL (by omega) hR⟩

theorem parseLines_length {J : Type} (parse : List Char → Option J) :
    ∀ (lines : List (List Char)) (js : List J),
      parseLines parse lines = some js → js.length = lines.length := by
  intro lines
  induction lines with
  | nil => intro js h; simp [parseLines] at h; subst h; rfl
  | cons x xs ih =>
    intro js h
    simp only [parseLines] at h
    cases hx : parse x with
    | none => rw [hx] at h; exact absurd h (by simp)
    | some j =>
      rw [hx] at h
      cases hxs : parseLines parse xs with
      | none => rw [hxs] at h; exact absurd h (by simp)
      | some js' =>
        rw [hxs] at h
        simp at h
        subst h
        simp [ih js' hxs]

theorem parseLines_get {J : Type} (parse : List Char → Option J) :
    ∀ (lines : List (List Char)) (js : List J),
      parseLines parse lines = some js →
      ∀ (k : Nat) (hk : k < lines.length) (hk' : k < js.length),
        parse (lines.get ⟨k, hk⟩) = some (js.get ⟨k, hk'⟩) := by
  intro lines
  induction lines with
  | nil => intro js h k hk; exact absurd hk (by simp)
  | cons x xs ih =>
    intro js h k hk hk'
    simp only [parseLines] at h
    cases hx : parse x with
    | none => rw [hx] at h; exact absurd h (by simp)
    | some j =>
      rw [hx] at h
      cases hxs : parseLines parse xs with
      | none => rw [hxs] at h; exact absurd h (by simp)
      | some js' =>
        rw [hxs] at h
        simp at h
        subst h
        cases k with
        | zero => simpa using hx
        | succ n =>
          simp only [List.get]
          exact ih js' hxs n (by simpa using hk) (by simpa using hk')

theorem parseLines_none {J : Type} (parse : List Char → Option J) :
    ∀ (lines : List (List Char)) (x : List Char),
      x ∈ lines → parse x = none → parseLines parse lines = none := by
  intro lines
  induction lines with
  | nil => intro x hx; exact absurd hx (by simp)
  | cons y ys ih =>
    intro x hx hnone
    rcases List.mem_cons.mp hx with h | h
    · subst h; simp [parseLines, hnone]
    · simp only [parseLines]
      cases hy : parse y with
      | none => rfl
      | some j => rw [ih x h hnone]

theorem splitLines_ne_nil : ∀ l : List Char, splitLines l ≠ [] := by
  intro l
  cases l with
  | nil => simp [splitLines]
  | cons c cs =>
    unfold splitLines
    split
    · simp
    · split <;> simp

/-! ## Claim theorems -/

/-- Claim C1, counterexample.  A parsed AI response that is a JSON object
with no `endgame` field is returned by `analyzeGame` as a success, not an
`InvalidAnalysisFormat` failure (the `as FullAnalysis` cast performs no
runtime validation); and a failed analysis request does not leave the
previously displayed analysis unchanged: `startAnalysis` clears it to
`none` before the call, so after the failure it is gone. -/
theorem analyzeGame_missing_field_counterexample :
    Json.hasField jsonMissingEndgame "endgame" = false ∧
    analyzeGame (some jsonMissingEndgame) = Except.ok jsonMissingEndgame ∧
    sC1.analysis = some analysisA ∧
    (startAnalysis sC1 (Except.error "Invalid analysis format received from AI.")).1.analysis
      = none :=
  ⟨rfl, rfl, rfl, by decide⟩

/-- Claim C1, amended.  When the AI response text cannot be parsed,
`analyzeGame` fails with the `InvalidAnalysisFormat` message, and this is
the only client-side check: any parsed JSON value is returned unvalidated.
A failed analysis request (past the input guard) leaves the analysis
cleared to `none` — it was discarded when the request started — and sets
the generic failure message. -/
theorem analyzeGame_parse_failure_amended {G : Type} (s : SessionState G)
    (msg : String) (h : ¬(s.pgn = "" ∧ s.moveHistory = [])) :
    analyzeGame none = Except.error "Invalid analysis format received from AI." ∧
    (∀ j : Json, analyzeGame (some j) = Except.ok j) ∧
    (startAnalysis s (Except.error msg)).1.analysis = none ∧
    (startAnalysis s (Except.error msg)).1.error
      = some "Analysis failed. Please try again." ∧
    (startAnalysis s (Except.error msg)).2 = true := by
  refine ⟨rfl, fun j => rfl, ?_, ?_, ?_⟩ <;> simp [startAnalysis, h]

/-- Witness for the amended C1 theorem at a concrete session. -/
theorem analyzeGame_parse_failure_amended_witness :
    ¬(sC1.pgn = "" ∧ sC1.moveHistory = []) ∧
    (startAnalysis sC1 (Except.error "boom")).1.analysis = none ∧
    (startAnalysis sC1 (Except.error "boom")).1.error
      = some "Analysis failed. Please try again." :=
  ⟨by decide,
   (analyzeGame_parse_failure_amended sC1 "boom" (by decide)).2.2.1,
   (analyzeGame_parse_failure_amended sC1 "boom" (by decide)).2.2.2.1⟩

/-- Claim C2, counterexample.  The reset handler does not touch the input
mode or the username, so from a session in lichess mode with a username
they keep their prior values instead of returning to the documented
initial values (`manual` and the empty string). -/
theorem resetGame_counterexample :
    (resetGame toyEngine sC2).inputMode = InputMode.lichess ∧
    (initialState toyEngine).inputMode = InputMode.manual ∧
    (resetGame toyEngine sC2).username = "alice" ∧
    (initialState toyEngine).username = "" :=
  ⟨rfl, rfl, rfl, rfl⟩

/-- Claim C2, amended.  Reset returns the board, the PGN text, the move
list, the cursor, the analysis, the chat transcript and the error to their
initial values, and leaves the input mode, the username and the pending
chat input unchanged. -/
theorem resetGame_amended {G : Type} (E : Engine G) (s : SessionState G) :
    (resetGame E s).game = (initialState E).game ∧
    (resetGame E s).pgn = (initialState E).pgn ∧
    (resetGame E s).moveHistory = (initialState E).moveHistory ∧
    (resetGame E s).currentMoveIndex = (initialState E).currentMoveIndex ∧
    (resetGame E s).analysis = (initialState E).analysis ∧
    (resetGame E s).chatMessages = (initialState E).chatMessages ∧
    (resetGame E s).error = (initialState E).error ∧
    (resetGame E s).inputMode = s.inputMode ∧
    (resetGame E s).username = s.username ∧
    (resetGame E s).userQuery = s.userQuery :=
  ⟨rfl, rfl, rfl, rfl, rfl, rfl, rfl, rfl, rfl, rfl⟩

/-- Claim C3.  The documented cursor/board invariant is violated in a
state reachable through the exposed user actions, even for a coherent
rules engine: play a move from the start, use the enabled previous-move
button to return to the starting position, then play the same move again.
The resulting PGN text equals the stored one, so the `[pgn]` effect does
not re-run: the board shows the position after the move while
`currentMoveIndex` stays at `-1`, which denotes the starting position. -/
theorem board_cursor_invariant_bug :
    EngineCoherent toyEngine ∧ Reachable toyEngine rbBad ∧
    ¬ boardInvariant toyEngine rbBad := by
  refine ⟨toyEngine_coherent, ?_, ?_⟩
  · have h0 : Reachable toyEngine (initialState toyEngine) := Reachable.init
    have h1 := Reachable.step h0 (Step.drop (initialState toyEngine) "e2" "e4")
    rw [show (onDrop toyEngine (initialState toyEngine) "e2" "e4").1 = rbS1 from by decide]
      at h1
    have h2 := Reachable.step h1 (Step.navPrevBtn rbS1 (by decide))
    rw [show navigateToMove toyEngine rbS1 (rbS1.currentMoveIndex - 1) = rbS2 from by decide]
      at h2
    have h3 := Reachable.step h2 (Step.drop rbS2 "e2" "e4")
    rw [show (onDrop toyEngine rbS2 "e2" "e4").1 = rbBad from by decide] at h3
    exact h3
  · rintro ⟨-, -, r, hr, hfen⟩
    rw [show replayFrom toyEngine toyEngine.init
          (rbBad.moveHistory.take (rbBad.currentMoveIndex + 1).toNat) = some []
        from rfl] at hr
    cases hr
    exact absurd hfen (by decide)

/-- Claim C4.  A move attempt the rules engine rejects leaves the whole
session state unchanged — move list, cursor, board and error string — and
reports failure without surfacing an error. -/
theorem makeAMove_illegal_noop {G : Type} (E : Engine G) (s : SessionState G)
    (mFrom mTo promotion : String)
    (h : E.moveObj (E.fromFen (E.fen s.game)) mFrom mTo promotion = none) :
    makeAMove E s mFrom mTo promotion = (s, false) := by
  unfold makeAMove
  rw [h]

/-- Witness for C4: under the concrete engine a drop from an empty source
square is rejected and the state is untouched. -/
theorem makeAMove_illegal_noop_witness :
    toyEngine.moveObj
        (toyEngine.fromFen (toyEngine.fen (initialState toyEngine).game)) "" "e4" "q"
      = none ∧
    makeAMove toyEngine (initialState toyEngine) "" "e4" "q"
      = (initialState toyEngine, false) :=
  ⟨by decide,
   makeAMove_illegal_noop toyEngine (initialState toyEngine) "" "e4" "q" (by decide)⟩

/-- Claim C5.  On an HTTP-ok response the body is trimmed and split on
newlines; the call succeeds exactly when every line parses, in which case
the k-th returned summary is the parse of the k-th line; if any single
line is malformed the whole call fails with a parse failure and no partial
results. -/
theorem fetchRecentLichessGames_line_parsing {J : Type}
    (parse : List Char → Option J) (body : List Char) :
    (∀ js, fetchRecentLichessGames parse true body = Except.ok js ↔
        parseLines parse (splitLines (jsTrim body)) = some js) ∧
    ((∃ x ∈ splitLines (jsTrim body), parse x = none) →
        fetchRecentLichessGames parse true body = Except.error LichessError.parseFailure) ∧
    (∀ js, fetchRecentLichessGames parse true body = Except.ok js →
        js.length = (splitLines (jsTrim body)).length ∧
        ∀ (k : Nat) (hk : k < (splitLines (jsTrim body)).length) (hk' : k < js.length),
          parse ((splitLines (jsTrim body)).get ⟨k, hk⟩) = some (js.get ⟨k, hk'⟩)) := by
  refine ⟨?_, ?_, ?_⟩
  · intro js
    constructor
    · intro h
      unfold fetchRecentLichessGames at h
      simp only [if_true] at h
      cases hp : parseLines parse (splitLines (jsTrim body)) with
      | none => rw [hp] at h; exact absurd h (by simp)
      | some js' => rw [hp] at h; simp at h; subst h; rfl
    · intro h
      unfold fetchRecentLichessGames
      simp [h]
  · rintro ⟨x, hx, hnone⟩
    unfold fetchRecentLichessGames
    rw [parseLines_none parse _ x hx hnone]
    rfl
  · intro js h
    have hp : parseLines parse (splitLines (jsTrim body)) = some js := by
      unfold fetchRecentLichessGames at h
      simp only [if_true] at h
      cases hp : parseLines parse (splitLines (jsTrim body)) with
      | none => rw [hp] at h; exact absurd h (by simp)
      | some js' => rw [hp] at h; simp at h; subst h; rfl
    exact ⟨parseLines_length parse _ js hp, parseLines_get parse _ js hp⟩

/-- Witness for C5: a two-line body whose second line is malformed makes
the whole call fail. -/
theorem fetchRecentLichessGames_line_parsing_witness :
    (∃ x ∈ splitLines (jsTrim ['a', '\n', 'b']), parseOnlyA x = none) ∧
    fetchRecentLichessGames parseOnlyA true ['a', '\n', 'b']
      = Except.error LichessError.parseFailure :=
  ⟨⟨['b'], by decide, by decide⟩,
   (fetchRecentLichessGames_line_parsing parseOnlyA ['a', '\n', 'b']).2.1
     ⟨['b'], by decide, by decide⟩⟩

/-- Claim C6.  With empty PGN text and empty move history, requesting
analysis sets the fixed validation message and does not invoke the AI
client; otherwise the guard passes and the client is invoked. -/
theorem startAnalysis_guard {G : Type} (s : SessionState G)
    (result : Except String FullAnalysis) :
    (s.pgn = "" → s.moveHistory = [] →
      startAnalysis s result =
        ({ s with error := some "Please input some moves or upload a game first." },
          false)) ∧
    (¬(s.pgn = "" ∧ s.moveHistory = []) → (startAnalysis s result).2 = true) := by
  constructor
  · intro h1 h2
    simp [startAnalysis, h1, h2]
  · intro h
    cases result with
    | ok a => simp [startAnalysis, h]
    | error e => simp [startAnalysis, h]

/-- Witness for C6: the initial session trips the guard; a session with a
loaded game passes it and invokes the client. -/
theorem startAnalysis_guard_witness :
    startAnalysis (initialState toyEngine) (Except.ok analysisA) =
      ({ initialState toyEngine with
          error := some "Please input some moves or upload a game first." }, false) ∧
    (startAnalysis rbS1 (Except.ok analysisA)).2 = true :=
  ⟨(startAnalysis_guard (initialState toyEngine) (Except.ok analysisA)).1 rfl rfl,
   (startAnalysis_guard rbS1 (Except.ok analysisA)).2 (by decide)⟩

/-- Claim C7.  Sending chat with an input that trims to empty, or while a
reply is in flight, is a complete no-op: nothing is appended to the
transcript and the AI client is not invoked. -/
theorem handleSendChat_guard {G : Type} (s : SessionState G)
    (reply : Except String String)
    (h : jsTrim s.userQuery.data = [] ∨ s.isThinking = true) :
    handleSendChat s reply = (s, false) := by
  unfold handleSendChat
  rw [if_pos h]

/-- Witness for C7: a whitespace-only input leaves the session untouched
and skips the client call. -/
theorem handleSendChat_guard_witness :
    jsTrim sChat.userQuery.data = [] ∧
    handleSendChat sChat (Except.ok "hello") = (sChat, false) :=
  ⟨by decide, handleSendChat_guard sChat (Except.ok "hello") (Or.inl (by decide))⟩

/-- Claim C8.  Navigation is deterministic (it is a function of the stored
PGN and the index) and idempotent — navigating twice to the same index
yields the same state as navigating once — and for a loaded PGN and an
in-range index the resulting board is exactly the replay of moves
`[0..i]` from the starting position. -/
theorem navigateToMove_idempotent {G : Type} (E : Engine G) (s : SessionState G)
    (i : Int) :
    navigateToMove E (navigateToMove E s i) i = navigateToMove E s i ∧
    (∀ g r, s.pgn ≠ "" → E.loadPgn s.pgn = some g →
      i < ((E.history g).length : Int) →
      replayFrom E E.init ((E.history g).take (i + 1).toNat) = some r →
      navigateToMove E s i = { s with game := r, currentMoveIndex := i }) := by
  constructor
  · rcases navigateToMove_cases E s i with h | ⟨g, ng, hp, hL, hlen, hR, h⟩
    · rw [h]; exact h
    · rw [h]
      exact navigateToMove_eq_of E _ i g ng hp hL hlen hR
  · intro g r hp hL hlen hR
    exact navigateToMove_eq_of E s i g r hp hL hlen hR

/-- Witness for C8 at a loaded one-move game and index `0`. -/
theorem navigateToMove_idempotent_witness :
    rbS1.pgn ≠ "" ∧ toyEngine.loadPgn rbS1.pgn = some ["e2e4"] ∧
    navigateToMove toyEngine rbS1 0 = { rbS1 with game := ["e2e4"], currentMoveIndex := 0 } :=
  ⟨by decide, by decide,
   (navigateToMove_idempotent toyEngine rbS1 0).2 ["e2e4"] ["e2e4"]
     (by decide) (by decide) (by decide) rfl⟩

/-- Claim C9.  On an HTTP-ok response whose body is empty or
whitespace-only, the single empty line fails `JSON.parse` (modelled by the
hypothesis `parse [] = none`), so the call throws a parse failure instead
of returning an empty list; indeed a successful call never returns an
empty sequence, because splitting always yields at least one line. -/
theorem fetchRecentLichessGames_empty_body {J : Type}
    (parse : List Char → Option J) (ok : Bool) (body : List Char) :
    (jsTrim body = [] → parse [] = none →
      fetchRecentLichessGames parse true body = Except.error LichessError.parseFailure) ∧
    (∀ js, fetchRecentLichessGames parse ok body = Except.ok js → js ≠ []) := by
  constructor
  · intro htrim hparse
    unfold fetchRecentLichessGames
    rw [htrim]
    simp [splitLines, parseLines, hparse]
  · intro js h
    cases ok with
    | false => exact absurd h (by simp [fetchRecentLichessGames])
    | true =>
      have hp : parseLines parse (splitLines (jsTrim body)) = some js := by
        unfold fetchRecentLichessGames at h
        simp only [if_true] at h
        cases hp : parseLines parse (splitLines (jsTrim body)) with
        | none => rw [hp] at h; exact absurd h (by simp)
        | some js' => rw [hp] at h; simp at h; subst h; rfl
      have hlen := parseLines_length parse _ js hp
      intro hnil
      subst hnil
      exact splitLines_ne_nil (jsTrim body)
        (List.length_eq_zero.mp (by simpa using hlen.symm))

/-- Witness for C9: a whitespace-only body fails with a parse failure, and
a successful call returns a non-empty list. -/
theorem fetchRecentLichessGames_empty_body_witness :
    jsTrim [' '] = [] ∧
    fetchRecentLichessGames parseNever true [' '] = Except.error LichessError.parseFailure ∧
    fetchRecentLichessGames parseAlways true ['x'] = Except.ok [7] ∧
    ([7] : List Nat) ≠ [] :=
  ⟨by decide,
   (fetchRecentLichessGames_empty_body parseNever true [' ']).1 (by decide) rfl,
   rfl,
   (fetchRecentLichessGames_empty_body parseAlways true ['x']).2 [7] rfl⟩

/-- Claim C10.  With an empty stored PGN text, navigation is a complete
no-op for every index: the board and the cursor are left unchanged. -/
theorem navigateToMove_empty_pgn_noop {G : Type} (E : Engine G)
    (s : SessionState G) (i : Int) (h : s.pgn = "") :
    navigateToMove E s i = s := by
  simp [navigateToMove, h]

/-- Witness for C10 at the initial session and index `5`. -/
theorem navigateToMove_empty_pgn_noop_witness :
    (initialState toyEngine).pgn = "" ∧
    navigateToMove toyEngine (initialState toyEngine) 5 = initialState toyEngine :=
  ⟨rfl, navigateToMove_empty_pgn_noop toyEngine (initialState toyEngine) 5 rfl⟩
